import Mathlib

/-!
Verification of the connection registry, broadcast dispatcher and presence
notification subsystem of the Go-Chat-App repository.

The Go source is shallowly embedded:

* Go slices are modelled by `GoSlice` (an `Option (List α)`), keeping the
  distinction between a nil slice (`none`, marshalled to JSON null) and a
  non-nil slice (`some l`, marshalled to a JSON array).  `goAppend` models
  the builtin `append`, which turns a nil slice into a non-nil one.
* The registry globals of backend/utils/utils.go (`clients`,
  `notifyClients`) are modelled by `RegState`: the member list of the
  `clients` map plus a counter of the values sent on the unbuffered
  `notifyClients` channel.  `RegisterClient`, `DeregisterClient` and
  `CollectActiveUsers` are translated statement by statement.
* The broadcast dispatcher of backend/app/broadcast.go (and the identical
  broadcast package copy) is modelled with an explicit non-reentrant mutex:
  `mutexLock` returns `none` when the lock is already held, because the
  single dispatcher task that would have to release it is the very task
  that is blocked acquiring it — a blocked acquisition never completes.
  All fallible steps return `Option`; `none` means the loop body blocks
  forever (deadlock).
-/

/-- A Go slice of α: `none` is the nil slice, `some l` a non-nil slice with
elements `l`.  Mirrors the `[]string` / `[]Message` values in the source. -/
def GoSlice (α : Type) : Type := Option (List α)

instance (α : Type) [DecidableEq α] : DecidableEq (GoSlice α) := by
  unfold GoSlice; infer_instance

instance (α : Type) [Repr α] : Repr (GoSlice α) := by
  unfold GoSlice; infer_instance

instance (α : Type) : Inhabited (GoSlice α) := ⟨(none : Option (List α))⟩

/-- The Go builtin `append` on a slice: appending to the nil slice allocates
a fresh non-nil slice. -/
def goAppend {α : Type} (s : GoSlice α) (a : α) : GoSlice α :=
  match s with
  | none => some [a]
  | some l => some (l ++ [a])

/-- The non-nil empty slice, written `[]string{}` in Go. -/
def goEmpty {α : Type} : GoSlice α := some []

/-- The elements of a slice; the nil slice has no elements. -/
def GoSlice.toList {α : Type} (s : GoSlice α) : List α :=
  match s with
  | none => []
  | some l => l

/-- What `encoding/json` produces for a `[]string` value: `null` for the
nil slice, a JSON array for a non-nil slice. -/
inductive UsersJson : Type
  | null : UsersJson
  | arr : List String → UsersJson
deriving DecidableEq, Repr

/-- JSON marshalling of a `[]string` slice (nil marshals to null). -/
def marshalUsers (s : GoSlice String) : UsersJson :=
  match s with
  | none => UsersJson.null
  | some l => UsersJson.arr l

/-- models.Client: per-connection record.  The connection handle and the
`Send` channel are per-connection runtime objects; for registry claims a
client is identified by its unique `ID` together with its display name. -/
structure Client : Type where
  id : Nat
  displayName : String
deriving DecidableEq, Repr

/-- models.Message: a chat message. -/
structure Message : Type where
  sender : String
  content : String
  timestamp : Nat
deriving DecidableEq, Repr

/-- models.User: the fields of the db user row relevant here. -/
structure User : Type where
  username : String
deriving DecidableEq, Repr

/-- models.ActiveUsersMessage: the presence frame sent to every client. -/
structure ActiveUsersMessage : Type where
  type : String
  users : GoSlice String
deriving DecidableEq, Repr

/-- The registry globals of backend/utils/utils.go: the key set of the
`clients` map (as a list, membership is what the map provides) and the
number of presence signals sent on the `notifyClients` channel. -/
structure RegState : Type where
  clients : List Client
  signals : Nat
deriving DecidableEq, Repr

/-- The initial registry: empty `clients` map, no signals sent. -/
def emptyReg : RegState := ⟨[], 0⟩

/-- utils.RegisterClient: `clients[client] = true` (map insert — membership
is unchanged when the key is already present) followed by an unconditional
send on `notifyClients`. -/
def RegisterClient (c : Client) (st : RegState) : RegState :=
  { clients := if c ∈ st.clients then st.clients else st.clients ++ [c]
    signals := st.signals + 1 }

/-- utils.DeregisterClient: `delete(clients, client)` (removes the key if
present, no-op otherwise) followed by an unconditional send on
`notifyClients` — the signal is sent whether or not the client was present. -/
def DeregisterClient (c : Client) (st : RegState) : RegState :=
  { clients := st.clients.filter (fun d => d ≠ c)
    signals := st.signals + 1 }

/-- utils.CollectActiveUsers: starts from the non-nil empty slice
`[]string{}` and appends every registered display name. -/
def CollectActiveUsers (st : RegState) : GoSlice String :=
  st.clients.foldl (fun users c => goAppend users c.displayName) goEmpty

/-- A registry operation: one call to RegisterClient or DeregisterClient. -/
inductive RegOp : Type
  | register : Client → RegOp
  | deregister : Client → RegOp
deriving DecidableEq, Repr

/-- Apply one registry operation. -/
def applyOp (st : RegState) (op : RegOp) : RegState :=
  match op with
  | RegOp.register c => RegisterClient c st
  | RegOp.deregister c => DeregisterClient c st

/-- Apply a finite sequence of registry operations in order. -/
def applyOps : List RegOp → RegState → RegState
  | [], st => st
  | op :: rest, st => applyOps rest (applyOp st op)

/-- A spec-side definition (from the words of the spec, to be compared with
the state the code reaches): a client is active when it has been registered
and not subsequently deregistered, starting from a given initial membership
bit — the last operation mentioning the client decides its membership. -/
def specActiveFrom : Bool → List RegOp → Client → Bool
  | b, [], _ => b
  | b, RegOp.register d :: rest, c =>
      specActiveFrom (if d = c then true else b) rest c
  | b, RegOp.deregister d :: rest, c =>
      specActiveFrom (if d = c then false else b) rest c

/-- A spec-side definition: registered-and-not-subsequently-deregistered,
starting from the empty registry. -/
def specActive (ops : List RegOp) (c : Client) : Bool :=
  specActiveFrom false ops c

-- Helper lemmas about the registry model.

lemma collect_foldl (cs : List Client) (l : List String) :
    cs.foldl (fun users c => goAppend users c.displayName) (some l) =
      some (l ++ cs.map Client.displayName) := by
  induction cs generalizing l with
  | nil => simp
  | cons c rest ih =>
    rw [List.foldl_cons]
    show rest.foldl _ (goAppend (some l) c.displayName) = _
    rw [goAppend, ih (l ++ [c.displayName])]
    simp

/-- CollectActiveUsers returns exactly the display names of the clients in
the registry, always in a non-nil slice. -/
lemma collect_eq (st : RegState) :
    CollectActiveUsers st = some (st.clients.map Client.displayName) := by
  unfold CollectActiveUsers goEmpty
  simpa using collect_foldl st.clients []

lemma mem_RegisterClient (st : RegState) (d c : Client) :
    c ∈ (RegisterClient d st).clients ↔ (c ∈ st.clients ∨ c = d) := by
  by_cases hd : d ∈ st.clients
  · simp only [RegisterClient, if_pos hd]
    constructor
    · exact fun h => Or.inl h
    · rintro (h | h)
      · exact h
      · exact h ▸ hd
  · simp [RegisterClient, if_neg hd]

lemma mem_DeregisterClient (st : RegState) (d c : Client) :
    c ∈ (DeregisterClient d st).clients ↔ (c ∈ st.clients ∧ c ≠ d) := by
  simp [DeregisterClient]

lemma mem_applyOps (ops : List RegOp) (st : RegState) (c : Client) :
    (c ∈ (applyOps ops st).clients) ↔
      specActiveFrom (decide (c ∈ st.clients)) ops c = true := by
  induction ops generalizing st with
  | nil => simp [applyOps, specActiveFrom]
  | cons op rest ih =>
    cases op with
    | register d =>
      rw [applyOps, specActiveFrom, ih (applyOp st (RegOp.register d))]
      have harg : decide (c ∈ (applyOp st (RegOp.register d)).clients) =
          (if d = c then true else decide (c ∈ st.clients)) := by
        by_cases hdc : d = c
        · simp [applyOp, mem_RegisterClient, hdc]
        · have hcd : ¬ c = d := fun h => hdc h.symm
          simp [applyOp, mem_RegisterClient, hdc, hcd]
      rw [harg]
    | deregister d =>
      rw [applyOps, specActiveFrom, ih (applyOp st (RegOp.deregister d))]
      have harg : decide (c ∈ (applyOp st (RegOp.deregister d)).clients) =
          (if d = c then false else decide (c ∈ st.clients)) := by
        by_cases hdc : d = c
        · simp [applyOp, mem_DeregisterClient, hdc]
        · have hcd : ¬ c = d := fun h => hdc h.symm
          simp [applyOp, mem_DeregisterClient, hdc, hcd]
      rw [harg]

lemma nodup_applyOp (st : RegState) (op : RegOp)
    (h : st.clients.Nodup) : (applyOp st op).clients.Nodup := by
  cases op with
  | register d =>
    by_cases hd : d ∈ st.clients
    · simpa [applyOp, RegisterClient, if_pos hd] using h
    · simp only [applyOp, RegisterClient, if_neg hd]
      rw [List.nodup_append]
      refine ⟨h, List.nodup_singleton d, ?_⟩
      intro x hx hxd
      rw [List.mem_singleton] at hxd
      exact hd (hxd ▸ hx)
  | deregister d =>
    exact List.Nodup.filter _ h

lemma nodup_applyOps (ops : List RegOp) (st : RegState)
    (h : st.clients.Nodup) : (applyOps ops st).clients.Nodup := by
  induction ops generalizing st with
  | nil => simpa [applyOps] using h
  | cons op rest ih =>
    rw [applyOps]
    exact ih _ (nodup_applyOp st op h)

/-!
The broadcast dispatcher (backend/app/broadcast.go, and the identical
broadcast-package copy in the repository).  One loop body of
StartBroadcastListener does:

    mutex.Lock()
    for client := range clients {
        select {
        case client.Send <- messageBytes:
        default:
            DeregisterClient(client)   // begins with mutex.Lock()
        }
    }
    mutex.Unlock()

The `select`/`default` is a non-blocking attempted handoff on the unbuffered
`Send` channel: it succeeds exactly when the writer goroutine is ready to
receive.  `DeregisterClient` begins by acquiring the same `sync.Mutex`, which
is not reentrant in Go; since the dispatcher itself already holds it and is
the only task that could release it, that acquisition never completes.
-/

/-- One per-connection view during fan-out: the registered client, whether
its writer goroutine is currently ready to receive on `Send`, and the
messages handed to its `Send` channel so far. -/
structure Conn : Type where
  client : Client
  ready : Bool
  inbox : List Message
deriving DecidableEq, Repr

/-- Dispatcher-visible state: the clients map (each with its delivery
state), whether the shared mutex is held, and the count of presence signals
sent on `notifyClients`. -/
structure DispatchState : Type where
  conns : List Conn
  lockHeld : Bool
  signals : Nat
deriving DecidableEq, Repr

/-- Acquiring the shared `sync.Mutex`.  Go mutexes are not reentrant: when
the lock is already held, the acquiring task blocks until some other task
releases it — and in the single-task dispatcher loop no such task exists,
so the acquisition never completes (`none`). -/
def mutexLock (held : Bool) : Option Bool :=
  if held then none else some true

/-- The fan-out loop body over the clients map: a non-blocking handoff to
each client; on the `default` branch the code calls `DeregisterClient`,
which starts by acquiring the shared mutex (already held by the caller
during fan-out).  Returns the updated connection list and signal count, or
`none` when the loop blocks forever. -/
def fanout (m : Message) (held : Bool) :
    List Conn → Nat → Option (List Conn × Nat)
  | [], signals => some ([], signals)
  | conn :: rest, signals =>
    if conn.ready then
      match fanout m held rest signals with
      | none => none
      | some (cs, s) =>
          some ({ conn with inbox := conn.inbox ++ [m] } :: cs, s)
    else
      match mutexLock held with
      | none => none
      | some _ =>
          -- DeregisterClient: delete from the map, signal, release the lock.
          fanout m held rest (signals + 1)

/-- One iteration of the StartBroadcastListener loop, processing a single
message received from the `broadcast` channel: lock, fan out, unlock. -/
def StartBroadcastListenerIter (m : Message) (st : DispatchState) :
    Option DispatchState :=
  match mutexLock st.lockHeld with
  | none => none
  | some _ =>
    match fanout m true st.conns st.signals with
    | none => none
    | some (cs, s) => some { conns := cs, lockHeld := false, signals := s }

/-- The dispatcher loop processing a finite sequence of submitted messages
in submission order (the single sequential loop of StartBroadcastListener). -/
def processAll : List Message → DispatchState → Option DispatchState
  | [], st => some st
  | m :: rest, st =>
    match StartBroadcastListenerIter m st with
    | none => none
    | some st2 => processAll rest st2

/-- One iteration of the StartNotifyActiveUsers loop constructs the message
it fans out from a fresh CollectActiveUsers snapshot (backend/app/
broadcast.go lines 28 to 38). -/
def notifyMessage (st : RegState) : ActiveUsersMessage :=
  { type := "activeUsers", users := CollectActiveUsers st }

/-!
server.BroadcastMessage (backend/server/broadcast.go lines 54 to 63): save
the message, log a failure, and send the message on the broadcast channel
in either case.  The database is an external collaborator, so the outcome
of SaveMessage is an input of the model.
-/

/-- State touched by BroadcastMessage: the persisted messages, the log
lines emitted, and the sequence of messages placed on the `broadcast`
channel. -/
structure BroadcastState : Type where
  db : List Message
  logs : List String
  chan : List Message
deriving DecidableEq, Repr

/-- server.BroadcastMessage: attempts SaveMessage (outcome `saveErr`,
`none` on success); a failure is only logged; the message is sent on the
broadcast channel afterwards in both cases. -/
def BroadcastMessage (saveErr : Option String) (msg : Message)
    (st : BroadcastState) : BroadcastState :=
  let st1 :=
    match saveErr with
    | some e => { st with logs := st.logs ++ ["Failed to save message to DB: " ++ e] }
    | none => { st with db := st.db ++ [msg] }
  { st1 with chan := st1.chan ++ [msg] }

/-!
handlers.HandleConnections (backend/handlers/handlers.go lines 28 to 50):
authorization, upgrade, client creation and registration.  Authorization
and the protocol upgrade are external collaborators, so their outcomes are
inputs of the model.  The model covers the handler up to registration; the
subsequent read loop is the per-connection lifecycle.
-/

/-- The observable outcome of HandleConnections: the HTTP error status
written (if any), the registry afterwards, and the client created (if
any). -/
structure HandlerResult : Type where
  httpStatus : Option Nat
  reg : RegState
  clientCreated : Option Client
deriving DecidableEq, Repr

/-- utils.MakeClient: a fresh id and the display name from the authorized
user, defaulting to "Anonymous" when the username is empty. -/
def MakeClient (freshId : Nat) (u : User) : Client :=
  { id := freshId
    displayName := if u.username = "" then "Anonymous" else u.username }

/-- handlers.HandleConnections: on authorization failure writes HTTP 401
and returns; on upgrade failure logs and returns; otherwise creates the
client and registers it. -/
def HandleConnections (auth : Except String User)
    (upgrade : Except String Unit) (freshId : Nat) (reg : RegState) :
    HandlerResult :=
  match auth with
  | Except.error _ => { httpStatus := some 401, reg := reg, clientCreated := none }
  | Except.ok user =>
    match upgrade with
    | Except.error _ => { httpStatus := none, reg := reg, clientCreated := none }
    | Except.ok _ =>
      let c := MakeClient freshId user
      { httpStatus := none, reg := RegisterClient c reg, clientCreated := some c }

/-!
db.GetChatHistory (backend/db/db.go lines 69 to 106).  The database is an
external collaborator: the model takes the outcome of the query (the rows,
each of which either scans into a Message or fails to scan) and the
iteration error reported by rows.Err after the loop.
-/

/-- One row returned by the messages query: it either scans into a Message
or fails with a scan error. -/
inductive RowScan : Type
  | ok : Message → RowScan
  | err : String → RowScan
deriving DecidableEq, Repr

/-- The message of a successfully scanned row. -/
def RowScan.message : RowScan → Option Message
  | RowScan.ok m => some m
  | RowScan.err _ => none

/-- db.GetChatHistory: a query error is returned; otherwise the loop scans
each row, skipping (continue) any row whose scan fails, accumulating into
the nil-initialized slice `var messages []Message`; a row-iteration error
is returned after the loop; otherwise the messages and a nil error. -/
def GetChatHistory (query : Except String (List RowScan))
    (iterErr : Option String) : Except String (GoSlice Message) :=
  match query with
  | Except.error e => Except.error e
  | Except.ok rows =>
    let messages : GoSlice Message :=
      rows.foldl
        (fun acc r =>
          match r with
          | RowScan.ok m => goAppend acc m
          | RowScan.err _ => acc)
        (none : Option (List Message))
    match iterErr with
    | some e => Except.error e
    | none => Except.ok messages

/-- The slice built by appending a list of elements to the nil slice. -/
def goOfList {α : Type} (l : List α) : GoSlice α :=
  l.foldl goAppend (none : Option (List α))

-- Helper lemmas about the dispatcher model.

lemma fanout_all_ready (m : Message) (held : Bool) (conns : List Conn)
    (s : Nat) (h : ∀ c ∈ conns, c.ready = true) :
    fanout m held conns s =
      some (conns.map (fun c => { c with inbox := c.inbox ++ [m] }), s) := by
  induction conns with
  | nil => rfl
  | cons conn rest ih =>
    have hc : conn.ready = true := h conn (List.mem_cons_self conn rest)
    have hr : ∀ c ∈ rest, c.ready = true :=
      fun c hcr => h c (List.mem_cons_of_mem conn hcr)
    rw [fanout, ih hr]
    simp [hc]

lemma iter_all_ready (m : Message) (st : DispatchState)
    (hlock : st.lockHeld = false) (h : ∀ c ∈ st.conns, c.ready = true) :
    StartBroadcastListenerIter m st =
      some { conns := st.conns.map (fun c => { c with inbox := c.inbox ++ [m] })
             lockHeld := false
             signals := st.signals } := by
  rw [StartBroadcastListenerIter, hlock, mutexLock]
  rw [fanout_all_ready m true st.conns st.signals h]
  simp

lemma processAll_all_ready (msgs : List Message) (st : DispatchState)
    (hlock : st.lockHeld = false) (h : ∀ c ∈ st.conns, c.ready = true) :
    processAll msgs st =
      some { conns := st.conns.map (fun c => { c with inbox := c.inbox ++ msgs })
             lockHeld := false
             signals := st.signals } := by
  induction msgs generalizing st with
  | nil =>
    rw [processAll]
    cases st with
    | mk conns lockHeld signals =>
      simp only at hlock
      subst hlock
      simp
  | cons m rest ih =>
    rw [processAll, iter_all_ready m st hlock h]
    have h2 : ∀ c ∈ st.conns.map (fun c => { c with inbox := c.inbox ++ [m] }),
        c.ready = true := by
      intro c hc
      rw [List.mem_map] at hc
      obtain ⟨d, hd, hdc⟩ := hc
      rw [← hdc]
      exact h d hd
    have hrest := ih
      { conns := st.conns.map (fun c => { c with inbox := c.inbox ++ [m] })
        lockHeld := false
        signals := st.signals } rfl h2
    show processAll rest _ = _
    rw [hrest]
    simp [List.map_map, Function.comp, List.append_assoc]

lemma history_fold (rows : List RowScan) (acc : GoSlice Message) :
    rows.foldl
        (fun acc r =>
          match r with
          | RowScan.ok m => goAppend acc m
          | RowScan.err _ => acc)
        acc =
      (rows.filterMap RowScan.message).foldl goAppend acc := by
  induction rows generalizing acc with
  | nil => rfl
  | cons r rest ih =>
    cases r with
    | ok m => simp [List.filterMap_cons, RowScan.message, ih]
    | err e => simp [List.filterMap_cons, RowScan.message, ih]

/-- C1: the claim that Deregister signals a Presence event only on
successful removal and that two Deregister calls emit the same number of
presence signals as one is false at a concrete input: deregistering the
sole client twice emits two signals, one signal per call, although the
second call removes nothing. -/
theorem C1_counterexample :
    (DeregisterClient ⟨1, "alice"⟩
        (DeregisterClient ⟨1, "alice"⟩ ⟨[⟨1, "alice"⟩], 0⟩)).signals ≠
      (DeregisterClient ⟨1, "alice"⟩ ⟨[⟨1, "alice"⟩], 0⟩).signals := by
  decide

/-- C1 amended: DeregisterClient is idempotent on registry membership — a
second call on the same client leaves the same client set, and membership
afterwards is exactly the previous membership minus that client (so a call
on an absent client leaves the set unchanged) — but a presence signal is
emitted unconditionally on every call, so two calls emit two signals. -/
theorem C1_deregister_idempotent_membership :
    ∀ (st : RegState) (c : Client),
      (DeregisterClient c (DeregisterClient c st)).clients =
          (DeregisterClient c st).clients ∧
      (∀ d : Client,
          d ∈ (DeregisterClient c st).clients ↔ (d ∈ st.clients ∧ d ≠ c)) ∧
      (DeregisterClient c st).signals = st.signals + 1 ∧
      (DeregisterClient c (DeregisterClient c st)).signals = st.signals + 2 := by
  intro st c
  refine ⟨?_, fun d => mem_DeregisterClient st c d, rfl, rfl⟩
  simp [DeregisterClient, List.filter_filter]

/-- C2: the claim that the registry lock is never held across fan-out and
that no dispatcher execution can deadlock on it fails on the code: the
dispatcher holds the mutex across the entire fan-out, and on the
unresponsive branch calls DeregisterClient, whose own acquisition of the
same non-reentrant mutex never completes — one unready client suffices to
block the loop body forever. -/
theorem C2_dispatcher_deadlock :
    mutexLock true = none ∧
    StartBroadcastListenerIter ⟨"alice", "hi", 1⟩
        ⟨[⟨⟨1, "alice"⟩, false, []⟩], false, 0⟩ = none := by
  exact ⟨rfl, rfl⟩

/-- C3: the claim that a client whose handoff cannot complete is
deregistered while fan-out proceeds fails on the code: with alice ready and
bob unready, the loop body blocks forever inside DeregisterClient (no
resulting state, so bob is never removed), whereas the same fan-out run
without the lock held — the behaviour the claim describes — would deliver
to alice, drop bob and emit one presence signal. -/
theorem C3_backpressure_deadlock :
    StartBroadcastListenerIter ⟨"alice", "hi", 1⟩
        ⟨[⟨⟨1, "alice"⟩, true, []⟩, ⟨⟨2, "bob"⟩, false, []⟩], false, 0⟩ =
      none ∧
    fanout ⟨"alice", "hi", 1⟩ false
        [⟨⟨1, "alice"⟩, true, []⟩, ⟨⟨2, "bob"⟩, false, []⟩] 0 =
      some ([⟨⟨1, "alice"⟩, true, [⟨"alice", "hi", 1⟩]⟩], 1) := by
  exact ⟨rfl, rfl⟩

/-- C4: for every finite sequence of Register and Deregister calls starting
from the empty registry, a client is in the registry exactly when it has
been registered and not subsequently deregistered, the registry holds no
duplicates, and CollectActiveUsers returns exactly the display names of the
registered clients. -/
theorem C4_registry_consistency :
    ∀ ops : List RegOp,
      (∀ c : Client,
          c ∈ (applyOps ops emptyReg).clients ↔ specActive ops c = true) ∧
      (applyOps ops emptyReg).clients.Nodup ∧
      CollectActiveUsers (applyOps ops emptyReg) =
        some ((applyOps ops emptyReg).clients.map Client.displayName) := by
  intro ops
  refine ⟨fun c => ?_, nodup_applyOps ops emptyReg (by simp [emptyReg]), collect_eq _⟩
  have h := mem_applyOps ops emptyReg c
  simpa [emptyReg, specActive] using h

/-- C5: every presence message the notifier constructs for fan-out carries
the fixed tag "activeUsers" and a users list equal to the display names of
exactly the clients registered in the snapshot it is computed from. -/
theorem C5_presence_message :
    ∀ st : RegState,
      (notifyMessage st).type = "activeUsers" ∧
      (notifyMessage st).users = some (st.clients.map Client.displayName) := by
  intro st
  exact ⟨rfl, collect_eq st⟩

/-- C6: when the lock is free and every registered client is ready to
receive, the single sequential dispatcher loop delivers every submitted
message to every client, each inbox receiving the messages in submission
order, with no deregistration and no extra presence signal. -/
theorem C6_delivery_order :
    ∀ (msgs : List Message) (st : DispatchState),
      st.lockHeld = false →
      (∀ c ∈ st.conns, c.ready = true) →
      processAll msgs st =
        some { conns := st.conns.map (fun c => { c with inbox := c.inbox ++ msgs })
               lockHeld := false
               signals := st.signals } := by
  intro msgs st hlock h
  exact processAll_all_ready msgs st hlock h

/-- C6 witness: two ready clients, two messages; both clients observe both
messages in submission order. -/
theorem C6_delivery_order_witness :
    (⟨[⟨⟨1, "alice"⟩, true, []⟩, ⟨⟨2, "bob"⟩, true, []⟩], false, 0⟩ :
        DispatchState).lockHeld = false ∧
    (∀ c ∈ (⟨[⟨⟨1, "alice"⟩, true, []⟩, ⟨⟨2, "bob"⟩, true, []⟩], false, 0⟩ :
        DispatchState).conns, c.ready = true) ∧
    processAll [⟨"alice", "hi", 1⟩, ⟨"bob", "yo", 2⟩]
        ⟨[⟨⟨1, "alice"⟩, true, []⟩, ⟨⟨2, "bob"⟩, true, []⟩], false, 0⟩ =
      some ⟨[⟨⟨1, "alice"⟩, true, [⟨"alice", "hi", 1⟩, ⟨"bob", "yo", 2⟩]⟩,
             ⟨⟨2, "bob"⟩, true, [⟨"alice", "hi", 1⟩, ⟨"bob", "yo", 2⟩]⟩],
            false, 0⟩ := by
  refine ⟨rfl, by decide, ?_⟩
  exact (C6_delivery_order [⟨"alice", "hi", 1⟩, ⟨"bob", "yo", 2⟩]
    ⟨[⟨⟨1, "alice"⟩, true, []⟩, ⟨⟨2, "bob"⟩, true, []⟩], false, 0⟩
    rfl (by decide)).trans (by decide)

/-- C7: BroadcastMessage attempts to persist the message; on a SaveMessage
error the error is only logged and the message is still placed on the
broadcast channel, identically to the success path (where it is also
persisted). -/
theorem C7_persistence_failure_logged :
    ∀ (msg : Message) (st : BroadcastState) (e : String),
      (BroadcastMessage (some e) msg st).chan = st.chan ++ [msg] ∧
      (BroadcastMessage none msg st).chan = st.chan ++ [msg] ∧
      (BroadcastMessage (some e) msg st).logs =
        st.logs ++ ["Failed to save message to DB: " ++ e] ∧
      (BroadcastMessage (some e) msg st).db = st.db ∧
      (BroadcastMessage none msg st).db = st.db ++ [msg] := by
  intro msg st e
  exact ⟨rfl, rfl, rfl, rfl, rfl⟩

/-- C8: a connection request failing authorization is answered with HTTP
401, no client is created and the registry is untouched; a request whose
upgrade fails after authorization succeeded creates no client and leaves
the registry untouched, with no error status written. -/
theorem C8_reject_paths :
    ∀ (reg : RegState) (e e2 : String) (user : User)
      (upg : Except String Unit) (freshId : Nat),
      HandleConnections (Except.error e) upg freshId reg =
        { httpStatus := some 401, reg := reg, clientCreated := none } ∧
      HandleConnections (Except.ok user) (Except.error e2) freshId reg =
        { httpStatus := none, reg := reg, clientCreated := none } := by
  intro reg e e2 user upg freshId
  exact ⟨rfl, rfl⟩

/-- C9: CollectActiveUsers always returns a non-nil slice, so the presence
frame marshals its users field as a JSON array and never as null; on the
empty registry it returns the empty non-nil slice, marshalled as the empty
array. -/
theorem C9_snapshot_never_null :
    (∀ st : RegState,
        (CollectActiveUsers st).isSome = true ∧
        marshalUsers (CollectActiveUsers st) ≠ UsersJson.null) ∧
    CollectActiveUsers emptyReg = some [] ∧
    marshalUsers (CollectActiveUsers emptyReg) = UsersJson.arr [] := by
  refine ⟨fun st => ?_, rfl, rfl⟩
  rw [collect_eq st]
  exact ⟨rfl, by simp [marshalUsers]⟩

/-- C10: when the query and the row iteration succeed, GetChatHistory
returns a nil error together with exactly the successfully scanned
messages, in order, skipping every row whose scan fails. -/
theorem C10_history_skips_bad_rows :
    ∀ rows : List RowScan,
      GetChatHistory (Except.ok rows) none =
        Except.ok (goOfList (rows.filterMap RowScan.message)) := by
  intro rows
  rw [GetChatHistory, goOfList]
  rw [history_fold rows (none : Option (List Message))]
